import Mathlib

/-!
Verification of the user-account service (`user_service/app/routes/user.py`).

The routes file is embedded directly.  Its collaborators
(`app.auth.jwt_handler`, `app.services.user_service`, the request/response
schemas and the SQLAlchemy `User` model) are not part of the sources, so they
are modelled from the specification, each marked `Modelled from the spec:` in
its doc comment.  Handlers are pure state-passing functions
`inputs → Store → Except HTTPError Resp × Store`; an error result always
returns the incoming store unchanged, mirroring the fact that the Python
handlers raise `HTTPException` before any commit.
-/

namespace UserService

/-- The `User` relation row (id, username, email, password_hash), after
`user_service.app.utils.models.User`; the spec fixes these four attributes. -/
structure User where
  id : Nat
  username : String
  email : String
  password_hash : String
  deriving Repr, DecidableEq

/-- Modelled from the spec: the user store (the relational table behind the
session handle).  `nextId` is the store-assigned id counter ("id (unique
integer identifier, store-assigned)"). -/
structure Store where
  users : List User
  nextId : Nat
  deriving Repr, DecidableEq

/-- The decoded claims set of a token; the handlers read `payload["sub"]`. -/
structure Claims where
  sub : String
  deriving Repr, DecidableEq

/-- Modelled from the spec: a bearer credential as seen by the Token Codec
(`app.auth.jwt_handler` is not in the sources).  A token is a signed claims
set that may have expired or been tampered with, a malformed string, or a
missing `Authorization` header. -/
inductive BearerToken where
  | signed (sub : String) (expired : Bool) (tampered : Bool)
  | malformed
  | missing
  deriving Repr, DecidableEq

/-- Modelled from the spec: `verify(token) -> Result<Claims, Invalid>`:
"returns the decoded claims (at minimum `sub`) on success; returns `Invalid`
when the token is malformed, unsigned, tampered, or expired". -/
def decode_access_token : BearerToken → Option Claims
  | .signed s e t => if e || t then none else some ⟨s⟩
  | .malformed => none
  | .missing => none

/-- Modelled from the spec: `issue(subject)` "produces a signed token encoding
`{sub: subject}` plus an expiry; never fails for well-formed input". -/
def create_access_token (data : Claims) : BearerToken :=
  .signed data.sub false false

/-- Modelled from the spec: password hashing, an external collaborator; only
that it is a function of the password matters here. -/
def hash_password (p : String) : String :=
  "bcrypt$" ++ p

/-- Modelled from the spec: the "constant-time/salted comparison" of a
submitted password against a stored hash. -/
def verify_password (p h : String) : Bool :=
  hash_password p == h

/-- Modelled from the spec: `authenticate(username, password) -> Option<User>`:
"looks up the user by username; if found, compares `password` against
`password_hash` …; returns the user on match, `None` otherwise". -/
def authenticate_user (db : Store) (username password : String) : Option User :=
  match db.users.find? (fun u => u.username == username) with
  | none => none
  | some u => if verify_password password u.password_hash then some u else none

/-- Failure surfaced to the client: a status code with a detail message,
after FastAPI `HTTPException(status_code, detail)`. -/
structure HTTPError where
  status : Nat
  detail : String
  deriving Repr, DecidableEq

/-- Modelled from the spec: `create(input) -> Result<User, Conflict>`:
"hashes the password, persists a new record; fails with `Conflict` when
username already exists" (propagated as 409-equivalent). -/
def create_user_svc (username email password : String) (db : Store) :
    Except HTTPError (User × Store) :=
  if db.users.any (fun u => u.username == username) then
    .error ⟨409, "Username already registered"⟩
  else
    let u : User := ⟨db.nextId, username, email, hash_password password⟩
    .ok (u, ⟨db.users ++ [u], db.nextId + 1⟩)

/-- Request body of register/update: `UserCreate {username, email, password}`. -/
structure UserCreate where
  username : String
  email : String
  password : String
  deriving Repr, DecidableEq

/-- Request body of login: `UserLogin {username, password}`. -/
structure UserLogin where
  username : String
  password : String
  deriving Repr, DecidableEq

/-- Response schema `UserOut`: a user record sans password
("returns user record sans password"). -/
structure UserOut where
  id : Nat
  username : String
  email : String
  deriving Repr, DecidableEq

/-- The `user_data` dict built in `register`: note `id` is a *string*
(`"id": str(db_user.id)`). -/
structure UserPublic where
  id : String
  username : String
  email : String
  deriving Repr, DecidableEq

/-- Response schema `UserResponse` of register:
`{access_token, token_type, message, user}`. -/
structure UserResponse where
  access_token : BearerToken
  token_type : String
  message : String
  user : UserPublic
  deriving Repr, DecidableEq

/-- Response of login: `{access_token, token_type}`. -/
structure LoginResponse where
  access_token : BearerToken
  token_type : String
  deriving Repr, DecidableEq

/-- What FastAPI serialises a `UserOut` to, filtered by the response model. -/
def toUserOut (u : User) : UserOut :=
  ⟨u.id, u.username, u.email⟩

/-- Dependency `get_current_user(token)`: decode; on falsy payload raise 401
"Invalid authentication credentials". -/
def get_current_user (token : BearerToken) : Except HTTPError Claims :=
  match decode_access_token token with
  | some payload => .ok payload
  | none => .error ⟨401, "Invalid authentication credentials"⟩

/-- The filter of the three owned lookups:
`User.id == id, User.username == current_user["sub"]`. -/
def owns (id : Nat) (sub : String) (u : User) : Bool :=
  u.id == id && u.username == sub

/-- Handler for `POST /users/register`: verify token, create the user, issue a fresh token
for the new subject, assemble `UserResponse`. -/
def register (user : UserCreate) (token : BearerToken) (db : Store) :
    Except HTTPError UserResponse × Store :=
  match get_current_user token with
  | .error e => (.error e, db)
  | .ok _ =>
    match create_user_svc user.username user.email user.password db with
    | .error e => (.error e, db)
    | .ok (db_user, db') =>
      let access_token := create_access_token ⟨db_user.username⟩
      (.ok ⟨access_token, "bearer", "User registered successfully",
            ⟨toString db_user.id, db_user.username, db_user.email⟩⟩, db')

/-- Handler for `POST /users/login`: authenticate; 401 "Invalid credentials" on failure,
else a fresh token for the authenticated user's username. -/
def login (user : UserLogin) (db : Store) :
    Except HTTPError LoginResponse × Store :=
  match authenticate_user db user.username user.password with
  | none => (.error ⟨401, "Invalid credentials"⟩, db)
  | some db_user =>
      (.ok ⟨create_access_token ⟨db_user.username⟩, "bearer"⟩, db)

/-- Handler for `GET /users/{id}` (`read_users_me`): verify token, fetch by id *and*
username == subject; 404 "User not found" otherwise. -/
def read_users_me (id : Nat) (token : BearerToken) (db : Store) :
    Except HTTPError UserOut × Store :=
  match get_current_user token with
  | .error e => (.error e, db)
  | .ok current_user =>
    match db.users.find? (owns id current_user.sub) with
    | none => (.error ⟨404, "User not found"⟩, db)
    | some u => (.ok (toUserOut u), db)

/-- Replace the first element satisfying `p` (the row object SQLAlchemy's
`.first()` returned, mutated in place then committed). -/
def replaceFirst (p : User → Bool) (f : User → User) : List User → List User
  | [] => []
  | u :: us => if p u then f u :: us else u :: replaceFirst p f us

/-- Remove the first element satisfying `p` (`db.delete(db_user)`). -/
def eraseFirst (p : User → Bool) : List User → List User
  | [] => []
  | u :: us => if p u then us else u :: eraseFirst p us

/-- Handler for `PUT /users/{id}` (`update_user`): fetch owned record, overwrite its
`username` and `email` from the body (the body's password is never read),
commit, return the refreshed record. -/
def update_user (id : Nat) (user : UserCreate) (token : BearerToken)
    (db : Store) : Except HTTPError UserOut × Store :=
  match get_current_user token with
  | .error e => (.error e, db)
  | .ok current_user =>
    match db.users.find? (owns id current_user.sub) with
    | none => (.error ⟨404, "User not found"⟩, db)
    | some db_user =>
      let overwrite := fun (v : User) =>
        { v with username := user.username, email := user.email }
      let users' := replaceFirst (owns id current_user.sub) overwrite db.users
      (.ok (toUserOut (overwrite db_user)), { db with users := users' })

/-- Handler for `DELETE /users/{id}` (`delete_user_me`): fetch owned record, remove it,
return the success message. -/
def delete_user_me (id : Nat) (token : BearerToken) (db : Store) :
    Except HTTPError String × Store :=
  match get_current_user token with
  | .error e => (.error e, db)
  | .ok current_user =>
    match db.users.find? (owns id current_user.sub) with
    | none => (.error ⟨404, "User not found"⟩, db)
    | some _ =>
      let users' := eraseFirst (owns id current_user.sub) db.users
      (.ok "User deleted successfully", { db with users := users' })

/-- Handler for `GET /users/all` (`read_users_all`): verify token, return every record
(serialised through `List[UserOut]`). -/
def read_users_all (token : BearerToken) (db : Store) :
    Except HTTPError (List UserOut) × Store :=
  match get_current_user token with
  | .error e => (.error e, db)
  | .ok _ => (.ok (db.users.map toUserOut), db)

/-- HTTP methods used by the router. -/
inductive Method where
  | get | post | put | delete
  deriving Repr, DecidableEq

/-- One segment of a route pattern: a literal, or a path parameter
(`{id}` matches any single segment; type validation happens afterwards). -/
inductive Seg where
  | lit (s : String)
  | param
  deriving Repr, DecidableEq

/-- Which handler a route is bound to. -/
inductive HandlerTag where
  | register | login | read_users_me | update_user | delete_user_me
  | read_users_all
  deriving Repr, DecidableEq

/-- A registered route: method, path pattern, handler. -/
structure Route where
  method : Method
  pattern : List Seg
  handler : HandlerTag
  deriving Repr, DecidableEq

def segMatches : Seg → String → Bool
  | .lit s, x => s == x
  | .param, _ => true

def pathMatches : List Seg → List String → Bool
  | [], [] => true
  | s :: ss, x :: xs => segMatches s x && pathMatches ss xs
  | _, _ => false

def routeMatches (r : Route) (m : Method) (path : List String) : Bool :=
  (r.method == m) && pathMatches r.pattern path

/-- The route table, in the registration order of the decorators in
`routes/user.py` (prefix `/users`): register, login, `GET /{id}`,
`PUT /{id}`, `DELETE /{id}`, and `GET /all` last. -/
def routes : List Route :=
  [ ⟨.post, [.lit "users", .lit "register"], .register⟩,
    ⟨.post, [.lit "users", .lit "login"], .login⟩,
    ⟨.get, [.lit "users", .param], .read_users_me⟩,
    ⟨.put, [.lit "users", .param], .update_user⟩,
    ⟨.delete, [.lit "users", .param], .delete_user_me⟩,
    ⟨.get, [.lit "users", .lit "all"], .read_users_all⟩ ]

/-- First-match dispatch over the route table, the documented matching rule of
the underlying Starlette router. -/
def dispatch (m : Method) (path : List String) : Option Route :=
  routes.find? (fun r => routeMatches r m path)

/-- The public (non-password) strings of one stored record. -/
def User.publicStrings (u : User) : List String :=
  [toString u.id, u.username, u.email]

/-- Every public string of the store; `password_hash` values are not here. -/
def Store.publicStrings (db : Store) : List String :=
  (db.users.map User.publicStrings).flatten

/-- The strings a serialised token exposes (its claims). -/
def BearerToken.strings : BearerToken → List String
  | .signed s _ _ => [s]
  | .malformed => []
  | .missing => []

/-- Strings of a serialised `UserOut` payload. -/
def UserOut.strings (r : UserOut) : List String :=
  [toString r.id, r.username, r.email]

/-- Strings of the `user` object inside the register response. -/
def UserPublic.strings (r : UserPublic) : List String :=
  [r.id, r.username, r.email]

/-- Strings of a serialised register response. -/
def UserResponse.strings (r : UserResponse) : List String :=
  r.access_token.strings ++ [r.token_type, r.message] ++ r.user.strings

/-- Strings of a serialised login response. -/
def LoginResponse.strings (r : LoginResponse) : List String :=
  r.access_token.strings ++ [r.token_type]

/-- Modelled from the spec: the framework's integer coercion of the `{id}`
path parameter (`id: int`), accepting decimal digit strings only. -/
def parseNat? (s : String) : Option Nat :=
  if s.data ≠ [] ∧ s.data.all Char.isDigit then
    some (s.data.foldl
      (fun n ch => 10 * n + (ch.toNat - Char.toNat (Char.ofNat 48))) 0)
  else none

/-- The strings a success payload may draw on: public record fields, the fixed
literals of the handlers, and the request body's username/email.  No
`password_hash` value is in this list. -/
def allowedStrings (db : Store) (body : UserCreate) : List String :=
  db.publicStrings ++
  ["bearer", "User registered successfully", "User deleted successfully",
   body.username, body.email, toString db.nextId]

/-- Fixture: a stored user, used to instantiate the theorems. -/
def aliceW : User :=
  ⟨1, "alice", "a@x.com", hash_password "p1"⟩

/-- Fixture: a second stored user with a different id and username. -/
def bobW : User :=
  ⟨2, "bob", "b@x.com", hash_password "p2"⟩

/-- Fixture: a two-user store. -/
def dbW : Store :=
  ⟨[aliceW, bobW], 3⟩

/-- Fixture: a valid token whose subject is alice. -/
def tokAliceW : BearerToken :=
  create_access_token ⟨"alice"⟩

lemma owns_iff (idv : Nat) (sub : String) (u : User) :
    owns idv sub u = true ↔ u.id = idv ∧ u.username = sub := by
  simp [owns, Bool.and_eq_true, beq_iff_eq]

lemma find?_split {α : Type} (p : α → Bool) :
    ∀ (l : List α) (u : α), l.find? p = some u →
      ∃ l1 l2, l = l1 ++ u :: l2 ∧ (∀ x ∈ l1, p x = false) ∧ p u = true
  | [], u, h => by simp [List.find?] at h
  | a :: as, u, h => by
    rcases hp : p a with _ | _
    · rw [List.find?_cons_of_neg _ (by simp [hp])] at h
      obtain ⟨l1, l2, heq, hl1, hu⟩ := find?_split p as u h
      exact ⟨a :: l1, l2, by simp [heq], by
        intro x hx
        rcases List.mem_cons.mp hx with rfl | hx
        · exact hp
        · exact hl1 x hx, hu⟩
    · rw [List.find?_cons_of_pos _ hp] at h
      obtain rfl := Option.some.inj h
      exact ⟨[], as, rfl, by simp, hp⟩

lemma find?_append_cons {α : Type} (p : α → Bool) (l1 : List α) (u : α)
    (l2 : List α) (hl1 : ∀ x ∈ l1, p x = false) (hu : p u = true) :
    (l1 ++ u :: l2).find? p = some u := by
  induction l1 with
  | nil => simp [List.find?_cons_of_pos _ hu]
  | cons a as ih =>
    rw [List.cons_append, List.find?_cons_of_neg _ (by simp [hl1 a (by simp)])]
    exact ih (fun x hx => hl1 x (by simp [hx]))

lemma replaceFirst_append_cons (p : User → Bool) (f : User → User)
    (l1 : List User) (u : User) (l2 : List User)
    (hl1 : ∀ x ∈ l1, p x = false) (hu : p u = true) :
    replaceFirst p f (l1 ++ u :: l2) = l1 ++ f u :: l2 := by
  induction l1 with
  | nil => simp [replaceFirst, hu]
  | cons a as ih =>
    rw [List.cons_append]
    simp only [replaceFirst, hl1 a (by simp)]
    simp [ih (fun x hx => hl1 x (by simp [hx]))]

lemma eraseFirst_append_cons (p : User → Bool)
    (l1 : List User) (u : User) (l2 : List User)
    (hl1 : ∀ x ∈ l1, p x = false) (hu : p u = true) :
    eraseFirst p (l1 ++ u :: l2) = l1 ++ l2 := by
  induction l1 with
  | nil => simp [eraseFirst, hu]
  | cons a as ih =>
    rw [List.cons_append]
    simp only [eraseFirst, hl1 a (by simp)]
    simp [ih (fun x hx => hl1 x (by simp [hx]))]

lemma publicStrings_mem {db : Store} {u : User} (hu : u ∈ db.users) :
    toString u.id ∈ db.publicStrings ∧ u.username ∈ db.publicStrings ∧
    u.email ∈ db.publicStrings := by
  refine ⟨?_, ?_, ?_⟩ <;>
  · rw [Store.publicStrings, List.mem_flatten]
    exact ⟨User.publicStrings u, List.mem_map_of_mem _ hu, by
      simp [User.publicStrings]⟩

lemma authenticate_user_mem {db : Store} {n pw : String} {u : User}
    (h : authenticate_user db n pw = some u) : u ∈ db.users := by
  rcases hf : db.users.find? (fun v => v.username == n) with _ | v
  · simp [authenticate_user, hf] at h
  · simp only [authenticate_user, hf] at h
    by_cases hv : verify_password pw v.password_hash = true
    · rw [if_pos hv] at h
      exact (Option.some.inj h) ▸ List.mem_of_find?_eq_some hf
    · rw [if_neg hv] at h
      simp at h

lemma register_fresh_eq (db : Store) (body : UserCreate) (tok : BearerToken)
    (c : Claims) (hdec : decode_access_token tok = some c)
    (hfresh : ∀ u ∈ db.users, u.username ≠ body.username) :
    register body tok db =
      (.ok ⟨create_access_token ⟨body.username⟩, "bearer",
            "User registered successfully",
            ⟨toString db.nextId, body.username, body.email⟩⟩,
       ⟨db.users ++ [⟨db.nextId, body.username, body.email,
                      hash_password body.password⟩], db.nextId + 1⟩) := by
  have hany : db.users.any (fun u => u.username == body.username) = false := by
    rw [← Bool.not_eq_true, List.any_eq_true]
    rintro ⟨x, hx, hbx⟩
    exact hfresh x hx (beq_iff_eq.mp hbx)
  simp [register, get_current_user, hdec, create_user_svc, hany]

lemma pathMatches_lit_lit (s t : String) (p : List String) :
    pathMatches [.lit s, .lit t] p = true ↔ p = [s, t] := by
  cases p with
  | nil => simp [pathMatches]
  | cons a q =>
    cases q with
    | nil => simp [pathMatches, segMatches]
    | cons b q2 =>
      cases q2 with
      | nil =>
        simp only [pathMatches, segMatches, Bool.and_eq_true, beq_iff_eq,
          List.cons.injEq, and_true]
        constructor
        · rintro ⟨rfl, rfl⟩
          exact ⟨rfl, rfl⟩
        · rintro ⟨rfl, rfl⟩
          exact ⟨rfl, rfl⟩
      | cons c q3 => simp [pathMatches, segMatches]

/-- C1: for every stored record `u` and a valid token whose subject differs
from `u.username`, get-by-id, update and delete on `u.id` all fail with 404
and leave the store unchanged; and whenever get-by-id succeeds, the record it
returns is one whose username equals the token's subject. -/
theorem getUpdateDelete_owner_mismatch_404 (db : Store) (u : User)
    (tok : BearerToken) (c : Claims) (body : UserCreate)
    (hdec : decode_access_token tok = some c)
    (hmem : u ∈ db.users)
    (hids : db.users.Pairwise (fun a b => a.id ≠ b.id))
    (hne : c.sub ≠ u.username) :
    read_users_me u.id tok db = (.error ⟨404, "User not found"⟩, db) ∧
    update_user u.id body tok db = (.error ⟨404, "User not found"⟩, db) ∧
    delete_user_me u.id tok db = (.error ⟨404, "User not found"⟩, db) ∧
    (∀ (i : Nat) (r : UserOut) (db2 : Store),
      read_users_me i tok db = (.ok r, db2) →
      ∃ v ∈ db.users, v.id = i ∧ v.username = c.sub ∧ r = toUserOut v) := by
  have hfind : db.users.find? (owns u.id c.sub) = none := by
    rw [List.find?_eq_none]
    intro x hx hox
    obtain ⟨hid, hsub⟩ := (owns_iff _ _ _).mp hox
    by_cases hxu : x = u
    · rw [hxu] at hsub
      exact hne hsub.symm
    · exact (hids.forall (fun a b hab => hab.symm) hx hmem hxu) hid
  refine ⟨?_, ?_, ?_, ?_⟩
  · simp [read_users_me, get_current_user, hdec, hfind]
  · simp [update_user, get_current_user, hdec, hfind]
  · simp [delete_user_me, get_current_user, hdec, hfind]
  · intro i r db2 h
    simp only [read_users_me, get_current_user, hdec] at h
    rcases hf : db.users.find? (owns i c.sub) with _ | v
    · rw [hf] at h
      simp at h
    · rw [hf] at h
      simp only [Prod.mk.injEq] at h
      obtain ⟨hid, hsub⟩ := (owns_iff _ _ _).mp (List.find?_some hf)
      exact ⟨v, List.mem_of_find?_eq_some hf, hid, hsub, by
        cases h with | intro h1 h2 => exact (Except.ok.inj h1).symm⟩

/-- Witness for C1: alice's token on bob's id yields 404 with the store kept. -/
theorem owner_mismatch_404_witness :
    read_users_me bobW.id tokAliceW dbW = (.error ⟨404, "User not found"⟩, dbW) := by
  exact (getUpdateDelete_owner_mismatch_404 dbW bobW tokAliceW ⟨"alice"⟩
    ⟨"x", "y", "z"⟩ rfl (by simp [dbW]) (by simp [dbW, aliceW, bobW])
    (by simp [bobW])).1

/-- C2: every token-requiring handler rejects a token that fails verification
with 401 "Invalid authentication credentials" and returns the store unchanged;
in particular an invalid-token register creates no user. -/
theorem invalid_token_401_no_mutation (db : Store) (tok : BearerToken)
    (body : UserCreate) (idv : Nat)
    (hdec : decode_access_token tok = none) :
    register body tok db =
      (.error ⟨401, "Invalid authentication credentials"⟩, db) ∧
    read_users_me idv tok db =
      (.error ⟨401, "Invalid authentication credentials"⟩, db) ∧
    update_user idv body tok db =
      (.error ⟨401, "Invalid authentication credentials"⟩, db) ∧
    delete_user_me idv tok db =
      (.error ⟨401, "Invalid authentication credentials"⟩, db) ∧
    read_users_all tok db =
      (.error ⟨401, "Invalid authentication credentials"⟩, db) := by
  simp [register, read_users_me, update_user, delete_user_me, read_users_all,
        get_current_user, hdec]

/-- Witness for C2: a malformed token makes register fail with 401 and leaves
the two-user store untouched. -/
theorem invalid_token_401_witness :
    register ⟨"carol", "c@x.com", "pw"⟩ .malformed dbW =
      (.error ⟨401, "Invalid authentication credentials"⟩, dbW) := by
  exact (invalid_token_401_no_mutation dbW .malformed
    ⟨"carol", "c@x.com", "pw"⟩ 1 rfl).1

/-- C3: with any valid token, whatever its subject, list-all returns exactly
the password-free projection of every record in the store, unchanged. -/
theorem list_all_returns_everything (db : Store) (tok : BearerToken)
    (c : Claims) (hdec : decode_access_token tok = some c) :
    read_users_all tok db = (.ok (db.users.map toUserOut), db) ∧
    ∀ u ∈ db.users, toUserOut u ∈ db.users.map toUserOut := by
  refine ⟨by simp [read_users_all, get_current_user, hdec], ?_⟩
  intro u hu
  exact List.mem_map_of_mem toUserOut hu

/-- Witness for C3: alice's token lists both stored users. -/
theorem list_all_witness :
    read_users_all tokAliceW dbW = (.ok [toUserOut aliceW, toUserOut bobW], dbW) := by
  exact (list_all_returns_everything dbW tokAliceW ⟨"alice"⟩ rfl).1

/-- C4: login takes no token; when the credential verifier returns no user it
fails with 401 and the result carries no token, and when it returns `u` it
answers with a bearer token whose decoded subject is `u.username`. -/
theorem login_contract (db : Store) (body : UserLogin) :
    (authenticate_user db body.username body.password = none →
      login body db = (.error ⟨401, "Invalid credentials"⟩, db)) ∧
    (∀ u, authenticate_user db body.username body.password = some u →
      login body db = (.ok ⟨create_access_token ⟨u.username⟩, "bearer"⟩, db) ∧
      decode_access_token (create_access_token ⟨u.username⟩) =
        some ⟨u.username⟩) := by
  constructor
  · intro h
    simp [login, h]
  · intro u h
    exact ⟨by simp [login, h], rfl⟩

/-- Witness for C4: the wrong password gives 401; the right one gives a
bearer token for alice. -/
theorem login_contract_witness :
    login ⟨"alice", "bad"⟩ dbW = (.error ⟨401, "Invalid credentials"⟩, dbW) ∧
    login ⟨"alice", "p1"⟩ dbW =
      (.ok ⟨create_access_token ⟨"alice"⟩, "bearer"⟩, dbW) := by
  refine ⟨(login_contract dbW ⟨"alice", "bad"⟩).1 rfl, ?_⟩
  exact ((login_contract dbW ⟨"alice", "p1"⟩).2 aliceW rfl).1

/-- C5: with a valid token and a fresh username, register appends the new
user, answers with a fresh bearer token whose subject is the new username, a
message and the new user's id/username/email; with a taken username it fails
with 409 and the store is unchanged. -/
theorem register_contract (db : Store) (body : UserCreate) (tok : BearerToken)
    (c : Claims) (hdec : decode_access_token tok = some c) :
    ((∀ u ∈ db.users, u.username ≠ body.username) →
      register body tok db =
        (.ok ⟨create_access_token ⟨body.username⟩, "bearer",
              "User registered successfully",
              ⟨toString db.nextId, body.username, body.email⟩⟩,
         ⟨db.users ++ [⟨db.nextId, body.username, body.email,
                        hash_password body.password⟩], db.nextId + 1⟩) ∧
      decode_access_token (create_access_token ⟨body.username⟩) =
        some ⟨body.username⟩) ∧
    ((∃ u ∈ db.users, u.username = body.username) →
      register body tok db = (.error ⟨409, "Username already registered"⟩, db)) := by
  constructor
  · intro hfresh
    exact ⟨register_fresh_eq db body tok c hdec hfresh, rfl⟩
  · rintro ⟨u, hu, huname⟩
    have hany : db.users.any (fun v => v.username == body.username) = true :=
      List.any_eq_true.mpr ⟨u, hu, beq_iff_eq.mpr huname⟩
    simp [register, get_current_user, hdec, create_user_svc, hany]

/-- Witness for C5: registering carol succeeds with the expected payload and
store; registering alice again is a 409 conflict. -/
theorem register_contract_witness :
    register ⟨"carol", "c@x.com", "pw"⟩ tokAliceW dbW =
      (.ok ⟨create_access_token ⟨"carol"⟩, "bearer",
            "User registered successfully", ⟨"3", "carol", "c@x.com"⟩⟩,
       ⟨[aliceW, bobW, ⟨3, "carol", "c@x.com", hash_password "pw"⟩], 4⟩) ∧
    register ⟨"alice", "x", "y"⟩ tokAliceW dbW =
      (.error ⟨409, "Username already registered"⟩, dbW) := by
  constructor
  · exact ((register_contract dbW ⟨"carol", "c@x.com", "pw"⟩ tokAliceW
      ⟨"alice"⟩ rfl).1 (by simp [dbW, aliceW, bobW])).1
  · exact (register_contract dbW ⟨"alice", "x", "y"⟩ tokAliceW ⟨"alice"⟩
      rfl).2 ⟨aliceW, by simp [dbW], rfl⟩

/-- C6: when update finds the owned record `u`, exactly that record is
overwritten in its username and email; its id and password_hash are kept (the
body's password is never read), every other record and the id counter are
unchanged. -/
theorem update_frame (db : Store) (l1 l2 : List User) (u : User) (idv : Nat)
    (body : UserCreate) (tok : BearerToken) (c : Claims)
    (hdec : decode_access_token tok = some c)
    (hsplit : db.users = l1 ++ u :: l2)
    (hl1 : ∀ x ∈ l1, owns idv c.sub x = false)
    (hu : owns idv c.sub u = true) :
    update_user idv body tok db =
      (.ok (toUserOut { u with username := body.username,
                               email := body.email }),
       ⟨l1 ++ { u with username := body.username,
                       email := body.email } :: l2, db.nextId⟩) := by
  have hfind : db.users.find? (owns idv c.sub) = some u := by
    rw [hsplit]
    exact find?_append_cons _ l1 u l2 hl1 hu
  have hrep : replaceFirst (owns idv c.sub)
      (fun v => { v with username := body.username, email := body.email })
      db.users =
      l1 ++ { u with username := body.username, email := body.email } :: l2 := by
    rw [hsplit]
    exact replaceFirst_append_cons _ _ l1 u l2 hl1 hu
  simp [update_user, get_current_user, hdec, hfind, hrep]

/-- Witness for C6: updating alice rewrites only her username/email; bob and
the id counter survive, and the password hash is the old one. -/
theorem update_frame_witness :
    update_user 1 ⟨"al2", "a2@x.com", "npw"⟩ tokAliceW dbW =
      (.ok (toUserOut { aliceW with username := "al2", email := "a2@x.com" }),
       ⟨[{ aliceW with username := "al2", email := "a2@x.com" }, bobW], 3⟩) := by
  exact update_frame dbW [] [bobW] aliceW 1 ⟨"al2", "a2@x.com", "npw"⟩
    tokAliceW ⟨"alice"⟩ rfl (by simp [dbW]) (by simp) (by simp [owns, aliceW])

/-- C7: once a delete for an id succeeded, repeating it with the same subject
fails with 404 and leaves the (already shrunk) store unchanged. -/
theorem delete_idempotent (db : Store) (idv : Nat) (tok : BearerToken)
    (c : Claims) (msg : String) (db2 : Store)
    (hdec : decode_access_token tok = some c)
    (hids : db.users.Pairwise (fun a b => a.id ≠ b.id))
    (h1 : delete_user_me idv tok db = (.ok msg, db2)) :
    delete_user_me idv tok db2 = (.error ⟨404, "User not found"⟩, db2) := by
  simp only [delete_user_me, get_current_user, hdec] at h1 ⊢
  rcases hf : db.users.find? (owns idv c.sub) with _ | u
  · rw [hf] at h1
    simp at h1
  · rw [hf] at h1
    simp only [Prod.mk.injEq] at h1
    obtain ⟨-, hdb2⟩ := h1
    obtain ⟨l1, l2, hsplit, hl1, hu⟩ := find?_split _ _ _ hf
    have herase : eraseFirst (owns idv c.sub) db.users = l1 ++ l2 := by
      rw [hsplit]
      exact eraseFirst_append_cons _ l1 u l2 hl1 hu
    have husers : db2.users = l1 ++ l2 := by
      rw [← hdb2, herase]
    have hids2 : ∀ x ∈ l2, u.id ≠ x.id := by
      rw [hsplit, List.pairwise_append] at hids
      intro x hx
      exact (List.pairwise_cons.mp hids.2.1).1 x hx
    have hfind2 : db2.users.find? (owns idv c.sub) = none := by
      rw [husers, List.find?_eq_none]
      intro x hx hox
      rcases List.mem_append.mp hx with hx1 | hx2
      · rw [hl1 x hx1] at hox
        exact Bool.false_ne_true hox
      · obtain ⟨hxid, -⟩ := (owns_iff _ _ _).mp hox
        obtain ⟨huid, -⟩ := (owns_iff _ _ _).mp hu
        exact hids2 x hx2 (huid.trans hxid.symm)
    rw [hfind2]

/-- Witness for C7: after alice is deleted from the two-user store, deleting
id 1 again with her token is a 404 and the one-user store is kept. -/
theorem delete_idempotent_witness :
    delete_user_me 1 tokAliceW ⟨[bobW], 3⟩ =
      (.error ⟨404, "User not found"⟩, ⟨[bobW], 3⟩) := by
  exact delete_idempotent dbW 1 tokAliceW ⟨"alice"⟩ "User deleted successfully"
    ⟨[bobW], 3⟩ rfl (by simp [dbW, aliceW, bobW]) rfl

/-- C8: every string in any success payload of the six handlers lies in
`allowedStrings` — public record fields, the handlers' fixed literals and the
request body's username/email — a set that contains no `password_hash` value,
so no response ever carries a stored password hash. -/
theorem responses_draw_only_on_public_fields (db : Store) (tok : BearerToken)
    (idv : Nat) (body : UserCreate) (lbody : UserLogin) :
    (∀ r db2, register body tok db = (.ok r, db2) →
      ∀ s ∈ r.strings, s ∈ allowedStrings db body) ∧
    (∀ r db2, login lbody db = (.ok r, db2) →
      ∀ s ∈ r.strings, s ∈ allowedStrings db body) ∧
    (∀ r db2, read_users_me idv tok db = (.ok r, db2) →
      ∀ s ∈ r.strings, s ∈ allowedStrings db body) ∧
    (∀ r db2, update_user idv body tok db = (.ok r, db2) →
      ∀ s ∈ r.strings, s ∈ allowedStrings db body) ∧
    (∀ m db2, delete_user_me idv tok db = (.ok m, db2) →
      m ∈ allowedStrings db body) ∧
    (∀ rs db2, read_users_all tok db = (.ok rs, db2) →
      ∀ r ∈ rs, ∀ s ∈ r.strings, s ∈ allowedStrings db body) := by
  refine ⟨?_, ?_, ?_, ?_, ?_, ?_⟩
  · intro r db2 h s hs
    rcases hdec : decode_access_token tok with _ | c
    · simp [register, get_current_user, hdec] at h
    · by_cases hfresh : ∀ u ∈ db.users, u.username ≠ body.username
      · rw [register_fresh_eq db body tok c hdec hfresh, Prod.mk.injEq] at h
        obtain ⟨h1, -⟩ := h
        obtain rfl := Except.ok.inj h1
        revert hs
        simp only [UserResponse.strings, BearerToken.strings,
          UserPublic.strings, create_access_token, allowedStrings,
          List.mem_append, List.mem_cons, List.not_mem_nil, or_false]
        tauto
      · have hany : db.users.any (fun u => u.username == body.username) = true := by
          push_neg at hfresh
          obtain ⟨u, hu, hne⟩ := hfresh
          exact List.any_eq_true.mpr ⟨u, hu, beq_iff_eq.mpr hne⟩
        simp [register, get_current_user, hdec, create_user_svc, hany] at h
  · intro r db2 h s hs
    rcases hauth : authenticate_user db lbody.username lbody.password with _ | u
    · simp [login, hauth] at h
    · simp only [login, hauth, Prod.mk.injEq] at h
      obtain ⟨h1, -⟩ := h
      obtain rfl := Except.ok.inj h1
      simp only [LoginResponse.strings, BearerToken.strings,
        create_access_token, List.mem_append, List.mem_cons,
        List.mem_singleton, List.not_mem_nil, or_false] at hs
      rcases hs with rfl | rfl
      · exact List.mem_append_left _
          (publicStrings_mem (authenticate_user_mem hauth)).2.1
      · simp [allowedStrings]
  · intro r db2 h s hs
    rcases hdec : decode_access_token tok with _ | c
    · simp [read_users_me, get_current_user, hdec] at h
    · simp only [read_users_me, get_current_user, hdec] at h
      rcases hf : db.users.find? (owns idv c.sub) with _ | u
      · rw [hf] at h
        simp at h
      · rw [hf, Prod.mk.injEq] at h
        obtain ⟨h1, -⟩ := h
        obtain rfl := Except.ok.inj h1
        obtain ⟨hid, hun, hem⟩ :=
          publicStrings_mem (List.mem_of_find?_eq_some hf)
        simp only [toUserOut, UserOut.strings, List.mem_cons,
          List.not_mem_nil, or_false] at hs
        rcases hs with rfl | rfl | rfl
        · exact List.mem_append_left _ hid
        · exact List.mem_append_left _ hun
        · exact List.mem_append_left _ hem
  · intro r db2 h s hs
    rcases hdec : decode_access_token tok with _ | c
    · simp [update_user, get_current_user, hdec] at h
    · simp only [update_user, get_current_user, hdec] at h
      rcases hf : db.users.find? (owns idv c.sub) with _ | u
      · rw [hf] at h
        simp at h
      · rw [hf] at h
        simp only [Prod.mk.injEq] at h
        obtain ⟨h1, -⟩ := h
        obtain rfl := Except.ok.inj h1
        obtain ⟨hid, -, -⟩ := publicStrings_mem (List.mem_of_find?_eq_some hf)
        simp only [toUserOut, UserOut.strings, List.mem_cons,
          List.not_mem_nil, or_false] at hs
        rcases hs with rfl | rfl | rfl
        · exact List.mem_append_left _ hid
        · simp [allowedStrings]
        · simp [allowedStrings]
  · intro m db2 h
    rcases hdec : decode_access_token tok with _ | c
    · simp [delete_user_me, get_current_user, hdec] at h
    · simp only [delete_user_me, get_current_user, hdec] at h
      rcases hf : db.users.find? (owns idv c.sub) with _ | u
      · rw [hf] at h
        simp at h
      · rw [hf] at h
        simp only [Prod.mk.injEq] at h
        obtain ⟨h1, -⟩ := h
        obtain rfl := Except.ok.inj h1
        simp [allowedStrings]
  · intro rs db2 h r hr s hs
    rcases hdec : decode_access_token tok with _ | c
    · simp [read_users_all, get_current_user, hdec] at h
    · simp only [read_users_all, get_current_user, hdec, Prod.mk.injEq] at h
      obtain ⟨h1, -⟩ := h
      obtain rfl := Except.ok.inj h1
      obtain ⟨u, hu, rfl⟩ := List.mem_map.mp hr
      obtain ⟨hid, hun, hem⟩ := publicStrings_mem hu
      simp only [toUserOut, UserOut.strings, List.mem_cons,
        List.not_mem_nil, or_false] at hs
      rcases hs with rfl | rfl | rfl
      · exact List.mem_append_left _ hid
      · exact List.mem_append_left _ hun
      · exact List.mem_append_left _ hem

/-- Witness for C8: the username string in the successful get-by-id payload
for alice is among the allowed public strings. -/
theorem responses_public_witness :
    "alice" ∈ allowedStrings dbW ⟨"x", "y", "z"⟩ := by
  exact (responses_draw_only_on_public_fields dbW tokAliceW 1 ⟨"x", "y", "z"⟩
    ⟨"a", "b"⟩).2.2.1 (toUserOut aliceW) dbW rfl "alice"
    (by simp [toUserOut, aliceW, UserOut.strings])

/-- C9: whenever the router dispatches any request, the chosen route is never
the one bound to `read_users_all`; in particular `GET /users/all` lands on the
earlier-registered `GET /users/{id}` route, where the segment "all" fails the
integer coercion of the id parameter. -/
theorem all_route_shadowed_by_id_route (m : Method) (p : List String)
    (r : Route) (h : dispatch m p = some r) :
    r.handler ≠ .read_users_all ∧
    dispatch .get ["users", "all"] =
      some ⟨.get, [.lit "users", .param], .read_users_me⟩ ∧
    parseNat? "all" = none := by
  refine ⟨?_, by decide, by decide⟩
  intro hall
  obtain ⟨l1, l2, hsplit, -, hr⟩ := find?_split _ routes r h
  have hrmem : r ∈ routes := by
    rw [hsplit]
    exact List.mem_append_right _ (List.mem_cons_self _ _)
  have hreq : r = ⟨.get, [.lit "users", .lit "all"], .read_users_all⟩ := by
    simp only [routes, List.mem_cons, List.not_mem_nil, or_false] at hrmem
    rcases hrmem with rfl | rfl | rfl | rfl | rfl | rfl
    · exact absurd hall (by simp)
    · exact absurd hall (by simp)
    · exact absurd hall (by simp)
    · exact absurd hall (by simp)
    · exact absurd hall (by simp)
    · rfl
  subst hreq
  simp only [routeMatches, Bool.and_eq_true, beq_iff_eq] at hr
  obtain ⟨hm, hp⟩ := hr
  obtain rfl := hm.symm
  obtain rfl := (pathMatches_lit_lit "users" "all" p).mp hp
  rw [show dispatch .get ["users", "all"] =
    some ⟨.get, [.lit "users", .param], .read_users_me⟩ by decide] at h
  exact absurd (Option.some.inj h) (by simp)

/-- Witness for C9: the concrete dispatch of `GET /users/all` picks the
`{id}` route and "all" is not a decimal number. -/
theorem route_shadowing_witness :
    dispatch .get ["users", "all"] =
      some ⟨.get, [.lit "users", .param], .read_users_me⟩ ∧
    parseNat? "all" = none := by
  exact (all_route_shadowed_by_id_route .get ["users", "all"]
    ⟨.get, [.lit "users", .param], .read_users_me⟩ (by decide)).2

/-- C10: a successful register reports the freshly assigned integer id as its
decimal string rendering in the response's `user.id` field, while the stored
record keeps the integer id. -/
theorem register_returns_string_id (db : Store) (body : UserCreate)
    (tok : BearerToken) (c : Claims)
    (hdec : decode_access_token tok = some c)
    (hfresh : ∀ u ∈ db.users, u.username ≠ body.username) :
    (register body tok db).1.map (fun r => r.user.id) =
      .ok (toString db.nextId) ∧
    (register body tok db).2.users =
      db.users ++ [⟨db.nextId, body.username, body.email,
                    hash_password body.password⟩] ∧
    toString db.nextId = Nat.repr db.nextId := by
  rw [register_fresh_eq db body tok c hdec hfresh]
  exact ⟨rfl, rfl, rfl⟩

/-- Witness for C10: registering carol into the two-user store reports the
string "3" for the integer id 3. -/
theorem register_string_id_witness :
    (register ⟨"carol", "c@x.com", "pw"⟩ tokAliceW dbW).1.map
      (fun r => r.user.id) = .ok (toString dbW.nextId) ∧
    (register ⟨"carol", "c@x.com", "pw"⟩ tokAliceW dbW).2.users =
      dbW.users ++ [⟨dbW.nextId, "carol", "c@x.com", hash_password "pw"⟩] ∧
    toString dbW.nextId = Nat.repr dbW.nextId := by
  exact register_returns_string_id dbW ⟨"carol", "c@x.com", "pw"⟩ tokAliceW
    ⟨"alice"⟩ rfl (by simp [dbW, aliceW, bobW])

end UserService
